import Mathlib

/-!
Verification of `Lab5-part2/congestion_control.py`: a sliding-window ARQ
transport with TCP-like congestion control (slow start, AIMD, timeout
recovery, optional fast retransmit).

The Python source is embedded shallowly: byte strings become `List Nat`
(each entry one byte), `datetime` instants and float arithmetic become `ℚ`,
the circular buffers become functions `Nat → Option _` indexed by
`seq % BUF_SIZE`, and the background loops become step functions on explicit
state records.  A Python statement that raises is modelled by a result
carrying `some PyError` together with the state at the moment of the raise;
`none` means the step completed normally.
-/

namespace CongestionControl

/-! ## Packet codec (`PacketType`, `Packet`) -/

/-- Python `class PacketType(enum.IntEnum)`: DATA = ord of D (68), ACK = ord of A
(65), SYN = ord of S (83). -/
inductive PacketType where
  | DATA
  | ACK
  | SYN
deriving DecidableEq

/-- The integer value of the enum member (the 1-byte kind tag). -/
def PacketType.tag : PacketType → Nat
  | .DATA => 68
  | .ACK => 65
  | .SYN => 83

/-- Source constant `Packet.MAX_DATA_SIZE = 1400`. -/
def MAX_DATA_SIZE : Nat := 1400

/-- Python `class Packet`: `{_type, _seq_num, _data}`. -/
structure Packet where
  type : PacketType
  seqNum : Nat
  data : List Nat
deriving DecidableEq

/-- The 4 bytes of `struct.pack` with format !I applied to n: big-endian unsigned 32-bit. -/
def be4 (n : Nat) : List Nat :=
  [n / 2 ^ 24 % 256, n / 2 ^ 16 % 256, n / 2 ^ 8 % 256, n % 256]

/-- Source method `Packet.to_bytes`: the packed header (format !BI: kind tag byte, then big-endian sequence) followed by the data. -/
def Packet.toBytes (p : Packet) : List Nat :=
  p.type.tag :: be4 p.seqNum ++ p.data

/-- The two ways `Packet.from_bytes` can raise: `struct.error` when
`raw[:5]` holds fewer than 5 bytes, `ValueError` when `PacketType(tag)`
fails. -/
inductive DecodeError where
  | structErr
  | valueErr
deriving DecidableEq

/-- Python `PacketType(t)`: recover the enum member from the 1-byte tag. -/
def tagToType (t : Nat) : Option PacketType :=
  if t = 68 then some .DATA
  else if t = 65 then some .ACK
  else if t = 83 then some .SYN
  else none

/-- Source method `Packet.from_bytes(raw)`: unpack the 5-byte header (format !BI) then
`PacketType(header[0])`; `data = raw[5:]`. -/
def Packet.fromBytes (raw : List Nat) : Except DecodeError Packet :=
  match raw with
  | t :: a :: b :: c :: d :: rest =>
    match tagToType t with
    | some ty => .ok ⟨ty, ((a * 256 + b) * 256 + c) * 256 + d, rest⟩
    | none => .error .valueErr
  | _ => .error .structErr

/-! ## Receiver -/

/-- Source constant `Receiver._BUF_SIZE = 1000`. -/
def RECV_BUF_SIZE : Nat := 1000

/-- Python `seq_num % Receiver._BUF_SIZE` (sequence numbers handled by the
receiver are the non-negative `packet.seq_num`). -/
def rSlotOf (seq : Int) : Nat := (seq % (RECV_BUF_SIZE : Int)).toNat

/-- State of a `Receiver`: `_last_ack_sent`, `_max_seq_recv`,
`_recv_window`, plus the observable traces — `readyData` is the contents
pushed into `_ready_data` (what `recv()` pops, in order) and `acksSent`
records the `seq_num` of every ACK packet given to `ll_endpoint.send`. -/
structure ReceiverState where
  lastAckSent : Int
  maxSeqRecv : Int
  recvWindow : Nat → Option (List Nat)
  readyData : List (List Nat)
  acksSent : List Int

/-- Receiver state right after `__init__`. -/
def initReceiver : ReceiverState :=
  { lastAckSent := -1
    maxSeqRecv := -1
    recvWindow := fun _ => none
    readyData := []
    acksSent := [] }

/-- Pointwise update of a buffer modelled as a function. -/
def updateWin (w : Nat → Option (List Nat)) (i : Nat) (v : Option (List Nat)) :
    Nat → Option (List Nat) :=
  fun j => if j = i then v else w j

/-- Model of the `while (ack_num < self._max_seq_recv)` delivery loop of
`Receiver._recv`, lines 315–327.  Each iteration either stops at a gap or
increments `ack_num`, pushes the payload and frees the slot; the fuel
`(max_seq_recv - ack_num).toNat` decreases in lockstep with the guard, so
the fueled function computes exactly the loop. -/
def rAdvanceLoop : Nat → ReceiverState → Int → ReceiverState × Int
  | 0, s, ackNum => (s, ackNum)
  | fuel + 1, s, ackNum =>
    if ackNum < s.maxSeqRecv then
      let nextSlot := rSlotOf (ackNum + 1)
      match s.recvWindow nextSlot with
      | none => (s, ackNum)
      | some d =>
        rAdvanceLoop fuel
          { s with
            readyData := s.readyData ++ [d]
            recvWindow := updateWin s.recvWindow nextSlot none }
          (ackNum + 1)
    else (s, ackNum)

/-- One iteration of `Receiver._recv` on a decoded packet (lines 300–333). -/
def receiverStep (s : ReceiverState) (p : Packet) : ReceiverState :=
  if (p.seqNum : Int) ≤ s.lastAckSent then
    -- Retransmit ACK, if necessary
    { s with acksSent := s.acksSent ++ [s.lastAckSent] }
  else
    -- Put data in buffer
    let s1 :=
      { s with recvWindow := updateWin s.recvWindow (rSlotOf p.seqNum) (some p.data) }
    let s2 :=
      if (p.seqNum : Int) > s1.maxSeqRecv then { s1 with maxSeqRecv := (p.seqNum : Int) }
      else s1
    -- Determine what to ACK
    let (s3, ackNum) := rAdvanceLoop (s2.maxSeqRecv - s2.lastAckSent).toNat s2 s2.lastAckSent
    -- Send ACK
    { s3 with
      lastAckSent := ackNum
      acksSent := s3.acksSent ++ [ackNum] }

/-- One iteration of `Receiver._recv` from the raw bytes delivered by the
link (lines 296–297): the decode happens with no exception handler, so a
`DecodeError` propagates out of the loop. -/
def receiverStepRaw (s : ReceiverState) (raw : List Nat) :
    Except DecodeError ReceiverState :=
  match Packet.fromBytes raw with
  | .error e => .error e
  | .ok p => .ok (receiverStep s p)

/-! ## Sender -/

/-- Source constant `Sender._BUF_SIZE = 5000`. -/
def SEND_BUF_SIZE : Nat := 5000

/-- Python `seq_num % Sender._BUF_SIZE` (every sequence number reaching
this computation is ≥ 0). -/
def slotOf (seq : Int) : Nat := (seq % (SEND_BUF_SIZE : Int)).toNat

/-- The `send_time` field of a buffer slot is tri-valued in the source:
`None` (never sent), a `datetime` (sent once, at that instant), or the
int `0` (written on retransmission and by `_timeout`). -/
inductive SendMark where
  | never
  | once (t : ℚ)
  | retrans
deriving DecidableEq

/-- One entry of `Sender._buf`: `{"packet": ..., "send_time": ...}`. -/
structure SendSlot where
  packet : Packet
  mark : SendMark
deriving DecidableEq

/-- Exceptions the Sender code can raise during a step: a `TypeError`
(subscripting `None`, or `len()` of a bool), or a decode error escaping
`Packet.from_bytes`. -/
inductive PyError where
  | typeErr
  | decodeErr (e : DecodeError)
deriving DecidableEq

/-- State of a `Sender`: the window counters, the circular buffer with its
semaphore count, the congestion-control state, and the observable trace
`sent` recording the `seq_num` of every packet given to
`ll_endpoint.send`. -/
structure SenderState where
  lastAckRecv : Int
  lastSeqSent : Int
  lastSeqWritten : Int
  buf : Nat → Option SendSlot
  bufAvail : Nat
  useSlowStart : Bool
  useFastRetransmit : Bool
  cwnd : ℚ
  threshold : ℚ
  rtt : ℚ
  duplicate : List Nat
  timerArmed : Bool
  sent : List Nat

/-- Result of running a fragment of Sender code: the state reached, and
`some e` exactly when the fragment raised `e` there (so the state is the
one at the moment of the raise). -/
def StepRes := SenderState × Option PyError

/-- Sequential composition: a raise short-circuits the rest. -/
def andThen (r : StepRes) (f : SenderState → StepRes) : StepRes :=
  match r with
  | (s, some e) => (s, some e)
  | (s, none) => f s

/-- Pointwise update of the send buffer. -/
def updateBuf (b : Nat → Option SendSlot) (i : Nat) (v : Option SendSlot) :
    Nat → Option SendSlot :=
  fun j => if j = i then v else b j

/-- Source method `Sender._transmit(seq_num)` (lines 93–117): send the buffered packet,
raise `last_seq_sent` if passed, set the `send_time` of the slot to `now` on a
first transmission and to `0` otherwise, and (re)arm the timer.  An empty
slot makes `self._buf[slot]["packet"]` raise a `TypeError`. -/
def transmit (seq : Int) (now : ℚ) (s : SenderState) : StepRes :=
  let slot := slotOf seq
  match s.buf slot with
  | none => (s, some .typeErr)
  | some entry =>
    let s1 := { s with sent := s.sent ++ [entry.packet.seqNum] }
    let s2 := if s1.lastSeqSent < seq then { s1 with lastSeqSent := seq } else s1
    let s3 :=
      match entry.mark with
      | .never => { s2 with buf := updateBuf s2.buf slot (some ⟨entry.packet, .once now⟩) }
      | _ => { s2 with buf := updateBuf s2.buf slot (some ⟨entry.packet, .retrans⟩) }
    ({ s3 with timerArmed := true }, none)

/-- Python `range(a, b)` over integers. -/
def intRange (a b : Int) : List Int :=
  (List.range (b - a).toNat).map (fun i => a + i)

/-- The marking loop of `_timeout` (lines 153–155): for each in-flight
sequence number, `self._buf[slot]["send_time"] = 0`; an empty slot would
raise a `TypeError`. -/
def markLostList : List Int → SenderState → StepRes
  | [], s => (s, none)
  | seq :: rest, s =>
    let slot := slotOf seq
    match s.buf slot with
    | none => (s, some .typeErr)
    | some entry =>
      markLostList rest
        { s with buf := updateBuf s.buf slot (some ⟨entry.packet, .retrans⟩) }

/-- Source method `Sender._timeout` (lines 138–159): halve per the active mode, mark all
in-flight slots as retransmitted, pull `last_seq_sent` back to
`last_ack_recv`, and retransmit the oldest unACKed sequence. -/
def timeoutStep (now : ℚ) (s : SenderState) : StepRes :=
  let s1 :=
    if s.useSlowStart then
      { s with threshold := max 1 (s.cwnd / 2), cwnd := 1 }
    else
      { s with cwnd := max 1 (s.cwnd / 2) }
  andThen (markLostList (intRange (s1.lastAckRecv + 1) (s1.lastSeqSent + 1)) s1)
    fun s2 => transmit (s2.lastAckRecv + 1) now { s2 with lastSeqSent := s2.lastAckRecv }

/-- The RTT update of lines 181–185: a sample is folded in exactly when
`send_time != None and send_time != 0`, i.e. when the most recent
transmission was its first. -/
def rttFold (rtt : ℚ) (mark : SendMark) (recvTime : ℚ) : ℚ :=
  match mark with
  | .once t => rtt * (9 / 10) + (recvTime - t) * (1 / 10)
  | _ => rtt

/-- Model of the `while (self._last_ack_recv < packet.seq_num)` loop of
`Sender._recv` (lines 176–189): advance `last_ack_recv` one at a time,
fold an RTT sample from eligible slots, free the slot and release the
semaphore.  The fuel `(ackSeq - last_ack_recv).toNat` matches the guard
exactly since each iteration increments `last_ack_recv`.  A freed/empty
slot makes `self._buf[slot]["send_time"]` raise a `TypeError` (after the
increment). -/
def ackAdvanceLoop : Nat → Int → ℚ → SenderState → StepRes
  | 0, _, _, s => (s, none)
  | fuel + 1, ackSeq, now, s =>
    if s.lastAckRecv < ackSeq then
      let la := s.lastAckRecv + 1
      let slot := slotOf la
      match s.buf slot with
      | none => ({ s with lastAckRecv := la }, some .typeErr)
      | some entry =>
        ackAdvanceLoop fuel ackSeq now
          { s with
            lastAckRecv := la
            rtt := rttFold s.rtt entry.mark now
            buf := updateBuf s.buf slot none
            bufAvail := s.bufAvail + 1 }
    else (s, none)

/-- Lines 176–189 of `Sender._recv`, with the fuel instantiated. -/
def ackAdvance (ackSeq : Int) (now : ℚ) (s : SenderState) : StepRes :=
  ackAdvanceLoop (ackSeq - s.lastAckRecv).toNat ackSeq now s

/-- Python `list == int` is always `False` (no exception). -/
def pyListEqNat (_l : List Nat) (_n : Nat) : Bool := false

/-- Python `len(b)` on a bool raises a `TypeError`, i.e. never yields. -/
def pyLenOfBool (_b : Bool) : Option Nat := none

/-- The congestion-window growth shared by the fast-retransmit and
slow-start branches (lines 231–241 and 244–257): additive `1/cwnd` at or
above the threshold, `+1` below it. -/
def ccGrow (s : SenderState) : SenderState :=
  if s.cwnd ≥ s.threshold then { s with cwnd := s.cwnd + 1 / s.cwnd }
  else { s with cwnd := s.cwnd + 1 }

/-- The congestion-control block of `Sender._recv` (lines 200–262), run on
`packet.seq_num` after the window bookkeeping.  In fast-retransmit mode the
ACK is appended to `duplicate`; a run of 3 identical trailing entries
triggers `transmit(seq+1)`, `cwnd = max(1, cwnd/2)`,
`threshold = max(1, cwnd/2)` (from the already-halved cwnd), and then
line 227 evaluates `len(self.duplicate == 3)` — `list == int` is `False`
and `len(False)` raises a `TypeError`, so the clear/trim of lines 228–230
is dead code (kept here under the never-succeeding `pyLenOfBool`). -/
def ccUpdate (ackSeq : Nat) (now : ℚ) (s : SenderState) : StepRes :=
  if s.useFastRetransmit then
    let dup := s.duplicate ++ [ackSeq]
    let s1 := { s with duplicate := dup }
    if dup.length ≥ 3 then
      let lastThree := dup.drop (dup.length - 3)
      let retransmission := lastThree.all (fun i => i == ackSeq)
      if retransmission then
        andThen (transmit ((ackSeq : Int) + 1) now s1) fun s2 =>
          let s3 := { s2 with cwnd := max 1 (s2.cwnd / 2) }
          let s4 := { s3 with threshold := max 1 (s3.cwnd / 2) }
          match pyLenOfBool (pyListEqNat s4.duplicate 3) with
          | none => (s4, some .typeErr)
          | some l =>
            if l ≠ 0 then ({ s4 with duplicate := [] }, none)
            else
              ({ s4 with duplicate := s4.duplicate.take (s4.duplicate.length - 3) }, none)
      else (ccGrow s1, none)
    else (ccGrow s1, none)
  else if s.useSlowStart then (ccGrow s, none)
  else ({ s with cwnd := s.cwnd + 1 / s.cwnd }, none)

/-- Python `int(x)` on a non-negative float/rational: truncation. -/
def pyInt (q : ℚ) : Int := if 0 ≤ q then ⌊q⌋ else ⌈q⌉

/-- The drain loop of `Sender._recv` (lines 264–267): transmit successive
sequences while data remains and the window allows.  Each successful
`transmit(last_seq_sent + 1)` raises `last_seq_sent` by one, so the fuel
`(last_seq_written - last_seq_sent).toNat` dominates the first guard
conjunct. -/
def drainLoop : Nat → ℚ → SenderState → StepRes
  | 0, _, s => (s, none)
  | fuel + 1, now, s =>
    if s.lastSeqSent < s.lastSeqWritten ∧
        s.lastSeqSent - s.lastAckRecv < pyInt s.cwnd then
      andThen (transmit (s.lastSeqSent + 1) now s) (drainLoop fuel now)
    else (s, none)

/-- Lines 264–267 with the fuel instantiated. -/
def drain (now : ℚ) (s : SenderState) : StepRes :=
  drainLoop (s.lastSeqWritten - s.lastSeqSent).toNat now s

/-- One iteration of the ACK-processing loop `Sender._recv` of the Sender
(lines 162–267) on one input from the link: `none` models
`ll_endpoint.recv()` returning `None` (skipped), raw bytes are decoded with
no exception handler, a stale ACK (`seq_num <= last_ack_recv`) is dropped
by the `continue` at line 173 before any other processing — in particular
before the duplicate-ACK tracking at lines 200–207 — and otherwise the
window bookkeeping, the congestion-control block and the drain loop run in
order. -/
def senderRecvStep (raw : Option (List Nat)) (now : ℚ) (s : SenderState) : StepRes :=
  match raw with
  | none => (s, none)
  | some bytes =>
    match Packet.fromBytes bytes with
    | .error e => (s, some (.decodeErr e))
    | .ok packet =>
      if (packet.seqNum : Int) ≤ s.lastAckRecv then (s, none)
      else
        andThen (ackAdvance packet.seqNum now s) fun s1 =>
          let s2 :=
            if s1.lastSeqSent < s1.lastAckRecv then { s1 with lastSeqSent := s1.lastAckRecv }
            else s1
          let s3 :=
            if s2.timerArmed ∧ s2.lastAckRecv = s2.lastSeqSent then
              { s2 with timerArmed := false }
            else s2
          andThen (ccUpdate packet.seqNum now s3) (drain now)

/-- Sender state after `__init__` (lines 56–91): counters seeded, the SYN
packet at sequence 0 buffered and transmitted once (the source assigns
`self.threshold` after that first `_transmit`, which never reads it, so the
threshold is carried from the start here). -/
def initSender (useSlowStart useFastRetransmit : Bool) (threshold rtt0 now : ℚ) :
    StepRes :=
  let base : SenderState :=
    { lastAckRecv := -1
      lastSeqSent := -1
      lastSeqWritten := 0
      buf := updateBuf (fun _ => none) 0 (some ⟨⟨.SYN, 0, []⟩, .never⟩)
      bufAvail := SEND_BUF_SIZE - 1
      useSlowStart := useSlowStart
      useFastRetransmit := useFastRetransmit
      cwnd := 1
      threshold := threshold
      rtt := rtt0
      duplicate := []
      timerArmed := false
      sent := [] }
  transmit 0 now base

/-! ## Invariant predicate and concrete states used by witnesses and
counterexamples -/

/-- The congestion-state invariant of the spec: cwnd ≥ 1 and ssthresh ≥ 1. -/
def SenderInv (s : SenderState) : Prop := 1 ≤ s.cwnd ∧ 1 ≤ s.threshold

/-- A sender state in fast-retransmit mode whose tracker holds [5, 5], about
to receive a third duplicate ACK 5; sequence 6 is buffered. -/
def exC1 : SenderState :=
  { lastAckRecv := 4
    lastSeqSent := 8
    lastSeqWritten := 8
    buf := updateBuf (fun _ => none) 6 (some ⟨⟨.DATA, 6, [1]⟩, .once 0⟩)
    bufAvail := 4990
    useSlowStart := true
    useFastRetransmit := true
    cwnd := 8
    threshold := 8
    rtt := 1
    duplicate := [5, 5]
    timerArmed := true
    sent := [] }

/-- A sender state in fast-retransmit mode whose tracker holds [7, 7], about
to receive a third duplicate ACK 7; sequence 8 is buffered. -/
def csC3 : SenderState :=
  { lastAckRecv := 6
    lastSeqSent := 10
    lastSeqWritten := 10
    buf := updateBuf (fun _ => none) 8 (some ⟨⟨.DATA, 8, [2]⟩, .once 0⟩)
    bufAvail := 4990
    useSlowStart := true
    useFastRetransmit := true
    cwnd := 6
    threshold := 3
    rtt := 1
    duplicate := [7, 7]
    timerArmed := true
    sent := [] }

/-- A sender state with `last_ack_recv = 5` and an empty duplicate tracker,
in fast-retransmit mode: the target of a stale ACK 5. -/
def cs2 : SenderState :=
  { lastAckRecv := 5
    lastSeqSent := 5
    lastSeqWritten := 5
    buf := fun _ => none
    bufAvail := 5000
    useSlowStart := true
    useFastRetransmit := true
    cwnd := 4
    threshold := 50
    rtt := 1
    duplicate := []
    timerArmed := false
    sent := [] }

/-- The buffered SYN slot after its first transmission at time 0. -/
def slotSyn : SendSlot := ⟨⟨.SYN, 0, []⟩, .once 0⟩

/-- A slow-start sender with the SYN in flight, used to exercise the
timeout handler. -/
def cs4 : SenderState :=
  { lastAckRecv := -1
    lastSeqSent := 0
    lastSeqWritten := 0
    buf := updateBuf (fun _ => none) 0 (some slotSyn)
    bufAvail := 4999
    useSlowStart := true
    useFastRetransmit := false
    cwnd := 2
    threshold := 8
    rtt := 1
    duplicate := []
    timerArmed := true
    sent := [0] }

/-- A sender whose oldest unacknowledged slot carries a retransmitted
segment, about to be acknowledged. -/
def cs5 : SenderState :=
  { lastAckRecv := 2
    lastSeqSent := 3
    lastSeqWritten := 3
    buf := updateBuf (fun _ => none) 3 (some ⟨⟨.DATA, 3, [9]⟩, .retrans⟩)
    bufAvail := 4999
    useSlowStart := true
    useFastRetransmit := false
    cwnd := 2
    threshold := 8
    rtt := 1
    duplicate := []
    timerArmed := true
    sent := [3] }

/-! ## Helper lemmas about the sender primitives -/

theorem transmit_preserve (seq : Int) (now : ℚ) (s : SenderState) :
    (transmit seq now s).1.cwnd = s.cwnd ∧
    (transmit seq now s).1.threshold = s.threshold ∧
    (transmit seq now s).1.rtt = s.rtt ∧
    (transmit seq now s).1.duplicate = s.duplicate ∧
    (transmit seq now s).1.lastAckRecv = s.lastAckRecv := by
  unfold transmit
  cases hb : s.buf (slotOf seq) with
  | none => simp [hb]
  | some e =>
    obtain ⟨pkt, mk⟩ := e
    cases mk <;> simp [hb, apply_ite]

theorem transmit_sent (seq : Int) (now : ℚ) (s : SenderState) (e : SendSlot)
    (hb : s.buf (slotOf seq) = some e) :
    (transmit seq now s).1.sent = s.sent ++ [e.packet.seqNum] ∧
    (transmit seq now s).2 = none := by
  obtain ⟨pkt, mk⟩ := e
  unfold transmit
  cases mk <;> simp [hb, apply_ite]

theorem transmit_lss (q : Int) (now : ℚ) (s : SenderState) (e : SendSlot)
    (hb : s.buf (slotOf q) = some e) :
    (transmit q now s).1.lastSeqSent = if s.lastSeqSent < q then q else s.lastSeqSent := by
  obtain ⟨pkt, mk⟩ := e
  unfold transmit
  cases mk <;> simp [hb, apply_ite] <;> split <;> omega

theorem transmit_buf (q : Int) (now : ℚ) (s : SenderState) (j : Nat) :
    (transmit q now s).1.buf j = s.buf j ∨
    (j = slotOf q ∧ ∃ e, s.buf j = some e ∧
      ((e.mark = .never ∧ (transmit q now s).1.buf j = some ⟨e.packet, .once now⟩) ∨
       (e.mark ≠ .never ∧ (transmit q now s).1.buf j = some ⟨e.packet, .retrans⟩))) := by
  unfold transmit
  cases hb : s.buf (slotOf q) with
  | none => simp [hb]
  | some e =>
    by_cases hj : j = slotOf q
    · subst hj
      right
      obtain ⟨pkt, mk⟩ := e
      cases mk <;> simp [hb, apply_ite, updateBuf]
    · left
      obtain ⟨pkt, mk⟩ := e
      cases mk <;> simp [hb, apply_ite, updateBuf, hj]

theorem transmit_remark (q : Int) (n : ℚ) (t : SenderState) (e : SendSlot)
    (h : t.buf (slotOf q) = some e) (hm : e.mark ≠ .never) :
    (transmit q n t).1.buf (slotOf q) = some ⟨e.packet, .retrans⟩ := by
  obtain ⟨pkt, mk⟩ := e
  unfold transmit
  cases mk with
  | never => simp at hm
  | once t0 => simp [h, apply_ite, updateBuf]
  | retrans => simp [h, apply_ite, updateBuf]

theorem andThen_pres (P : SenderState → Prop) (r : StepRes) (f : SenderState → StepRes)
    (h1 : P r.1) (h2 : ∀ s', P s' → P (f s').1) : P (andThen r f).1 := by
  rcases r with ⟨s, e⟩
  cases e with
  | none => exact h2 s h1
  | some err => exact h1

theorem ackAdvanceLoop_preserve (fuel : Nat) (ackSeq : Int) (now : ℚ) (s : SenderState) :
    (ackAdvanceLoop fuel ackSeq now s).1.cwnd = s.cwnd ∧
    (ackAdvanceLoop fuel ackSeq now s).1.threshold = s.threshold ∧
    (ackAdvanceLoop fuel ackSeq now s).1.duplicate = s.duplicate ∧
    (ackAdvanceLoop fuel ackSeq now s).1.sent = s.sent ∧
    (ackAdvanceLoop fuel ackSeq now s).1.useSlowStart = s.useSlowStart ∧
    (ackAdvanceLoop fuel ackSeq now s).1.useFastRetransmit = s.useFastRetransmit := by
  induction fuel generalizing s with
  | zero => simp [ackAdvanceLoop]
  | succ n ih =>
    unfold ackAdvanceLoop
    split
    · cases hb : s.buf (slotOf (s.lastAckRecv + 1)) with
      | none => simp [hb]
      | some e => simpa [hb] using ih _
    · simp

theorem ackAdvance_single (s : SenderState) (now : ℚ) (entry : SendSlot)
    (hb : s.buf (slotOf (s.lastAckRecv + 1)) = some entry) :
    (ackAdvance (s.lastAckRecv + 1) now s).1.rtt = rttFold s.rtt entry.mark now := by
  unfold ackAdvance
  rw [show (s.lastAckRecv + 1 - s.lastAckRecv).toNat = 1 by omega]
  unfold ackAdvanceLoop
  rw [if_pos (by omega : s.lastAckRecv < s.lastAckRecv + 1)]
  simp [hb, ackAdvanceLoop]

theorem drainLoop_preserve (fuel : Nat) (now : ℚ) (s : SenderState) :
    (drainLoop fuel now s).1.cwnd = s.cwnd ∧
    (drainLoop fuel now s).1.threshold = s.threshold ∧
    (drainLoop fuel now s).1.rtt = s.rtt ∧
    (drainLoop fuel now s).1.duplicate = s.duplicate := by
  induction fuel generalizing s with
  | zero => simp [drainLoop]
  | succ n ih =>
    unfold drainLoop
    split
    · rcases ht : transmit (s.lastSeqSent + 1) now s with ⟨s', e⟩
      have hp := transmit_preserve (s.lastSeqSent + 1) now s
      rw [ht] at hp
      cases e with
      | none =>
        have := ih s'
        simp only [andThen, ht]
        exact ⟨by rw [this.1, hp.1], by rw [this.2.1, hp.2.1],
          by rw [this.2.2.1, hp.2.2.1], by rw [this.2.2.2, hp.2.2.2.1]⟩
      | some err => simp only [andThen, ht]; exact ⟨hp.1, hp.2.1, hp.2.2.1, hp.2.2.2.1⟩
    · simp

theorem ccGrow_spec (s : SenderState) :
    ((ccGrow s).cwnd = s.cwnd + 1 / s.cwnd ∨ (ccGrow s).cwnd = s.cwnd + 1) ∧
    (ccGrow s).threshold = s.threshold ∧
    (ccGrow s).duplicate = s.duplicate ∧
    (ccGrow s).sent = s.sent := by
  unfold ccGrow
  split <;> simp

theorem grow_ge_one (c : ℚ) (h : 1 ≤ c) : 1 ≤ c + 1 / c := by
  have h0 : (0 : ℚ) < c := lt_of_lt_of_le one_pos h
  have : 0 ≤ 1 / c := le_of_lt (by positivity)
  linarith

theorem ccUpdate_inv (ackSeq : Nat) (now : ℚ) (s : SenderState) (h : SenderInv s) :
    SenderInv (ccUpdate ackSeq now s).1 := by
  obtain ⟨hc, ht⟩ := h
  unfold ccUpdate
  split
  · dsimp only
    split
    · split
      · rcases htr : transmit ((ackSeq : Int) + 1) now
            { s with duplicate := s.duplicate ++ [ackSeq] } with ⟨s', e⟩
        have hp := transmit_preserve ((ackSeq : Int) + 1) now
            { s with duplicate := s.duplicate ++ [ackSeq] }
        rw [htr] at hp
        cases e with
        | none =>
          simp only [andThen, htr, pyLenOfBool, pyListEqNat]
          exact ⟨le_max_left _ _, le_max_left _ _⟩
        | some err =>
          simp only [andThen, htr]
          exact ⟨by rw [hp.1]; exact hc, by rw [hp.2.1]; exact ht⟩
      · have := ccGrow_spec { s with duplicate := s.duplicate ++ [ackSeq] }
        rcases this.1 with h1 | h1 <;>
          exact ⟨by rw [h1]; first | exact grow_ge_one _ hc | linarith,
            by rw [this.2.1]; exact ht⟩
    · have := ccGrow_spec { s with duplicate := s.duplicate ++ [ackSeq] }
      rcases this.1 with h1 | h1 <;>
        exact ⟨by rw [h1]; first | exact grow_ge_one _ hc | linarith,
          by rw [this.2.1]; exact ht⟩
  · split
    · have := ccGrow_spec s
      rcases this.1 with h1 | h1 <;>
        exact ⟨by rw [h1]; first | exact grow_ge_one _ hc | linarith,
          by rw [this.2.1]; exact ht⟩
    · exact ⟨grow_ge_one _ hc, ht⟩

theorem markLostList_fields (l : List Int) (s : SenderState) :
    (markLostList l s).1.lastAckRecv = s.lastAckRecv ∧
    (markLostList l s).1.lastSeqSent = s.lastSeqSent ∧
    (markLostList l s).1.lastSeqWritten = s.lastSeqWritten ∧
    (markLostList l s).1.sent = s.sent ∧
    (markLostList l s).1.cwnd = s.cwnd ∧
    (markLostList l s).1.threshold = s.threshold ∧
    (markLostList l s).1.useSlowStart = s.useSlowStart := by
  induction l generalizing s with
  | nil => simp [markLostList]
  | cons seq rest ih =>
    unfold markLostList
    cases hb : s.buf (slotOf seq) with
    | none => simp [hb]
    | some e => simpa [hb] using ih _

theorem markLostList_buf (l : List Int) (s : SenderState) (j : Nat) :
    (markLostList l s).1.buf j = s.buf j ∨
    ∃ e, s.buf j = some e ∧ (markLostList l s).1.buf j = some ⟨e.packet, .retrans⟩ := by
  induction l generalizing s with
  | nil => simp [markLostList]
  | cons seq rest ih =>
    unfold markLostList
    cases hb : s.buf (slotOf seq) with
    | none => simp [hb]
    | some e =>
      simp only [hb]
      rcases ih { s with buf := updateBuf s.buf (slotOf seq) (some ⟨e.packet, .retrans⟩) }
        with h | ⟨e', he', h⟩
      · by_cases hj : j = slotOf seq
        · subst hj
          right
          exact ⟨e, hb, by rw [h]; simp [updateBuf]⟩
        · left
          rw [h]; simp [updateBuf, hj]
      · by_cases hj : j = slotOf seq
        · subst hj
          right
          refine ⟨e, hb, ?_⟩
          simp only [updateBuf, if_pos rfl] at he'
          rw [h]
          cases he'
          rfl
        · simp only [updateBuf, if_neg hj] at he'
          right
          exact ⟨e', he', h⟩

theorem markLostList_ok (l : List Int) (s : SenderState)
    (h : ∀ seq ∈ l, (s.buf (slotOf seq)).isSome) :
    (markLostList l s).2 = none := by
  induction l generalizing s with
  | nil => simp [markLostList]
  | cons seq rest ih =>
    unfold markLostList
    cases hb : s.buf (slotOf seq) with
    | none => exact absurd (h seq (by simp)) (by simp [hb])
    | some e =>
      simp only [hb]
      apply ih
      intro q hq
      simp only [updateBuf]
      split
      · simp
      · exact h q (by simp [hq])

theorem markLostList_marks (l : List Int) (s : SenderState) (seq : Int)
    (hin : seq ∈ l) (hok : (markLostList l s).2 = none) :
    ∃ p, (markLostList l s).1.buf (slotOf seq) = some ⟨p, .retrans⟩ := by
  induction l generalizing s with
  | nil => simp at hin
  | cons q rest ih =>
    unfold markLostList at hok ⊢
    cases hb : s.buf (slotOf q) with
    | none => simp [hb] at hok
    | some e =>
      simp only [hb] at hok
      simp only [hb]
      rcases List.mem_cons.mp hin with heq | hmem
      · subst heq
        rcases markLostList_buf rest
            { s with buf := updateBuf s.buf (slotOf seq) (some ⟨e.packet, .retrans⟩) }
            (slotOf seq) with h | ⟨e', he', h⟩
        · exact ⟨e.packet, by rw [h]; simp [updateBuf]⟩
        · simp only [updateBuf, if_pos rfl] at he'
          cases he'
          exact ⟨e.packet, h⟩
      · exact ih _ hmem hok

theorem markLostList_isSome (l : List Int) (s : SenderState) (j : Nat) :
    ((markLostList l s).1.buf j).isSome = (s.buf j).isSome := by
  rcases markLostList_buf l s j with h | ⟨e, he, h⟩
  · simp [h]
  · simp [h, he]

theorem timeoutStep_inv (now : ℚ) (s : SenderState) (h : SenderInv s) :
    SenderInv (timeoutStep now s).1 := by
  rw [timeoutStep]
  apply andThen_pres
  · have hinv1 : SenderInv (if s.useSlowStart then
        { s with threshold := max 1 (s.cwnd / 2), cwnd := 1 }
      else { s with cwnd := max 1 (s.cwnd / 2) }) := by
      split
      · exact ⟨le_refl 1, le_max_left _ _⟩
      · exact ⟨le_max_left _ _, h.2⟩
    have hf := markLostList_fields
      (intRange ((if s.useSlowStart then
        { s with threshold := max 1 (s.cwnd / 2), cwnd := 1 }
      else { s with cwnd := max 1 (s.cwnd / 2) } : SenderState).lastAckRecv + 1)
        ((if s.useSlowStart then
        { s with threshold := max 1 (s.cwnd / 2), cwnd := 1 }
      else { s with cwnd := max 1 (s.cwnd / 2) } : SenderState).lastSeqSent + 1))
      (if s.useSlowStart then
        { s with threshold := max 1 (s.cwnd / 2), cwnd := 1 }
      else { s with cwnd := max 1 (s.cwnd / 2) })
    exact ⟨by rw [hf.2.2.2.2.1]; exact hinv1.1, by rw [hf.2.2.2.2.2.1]; exact hinv1.2⟩
  · intro s' h'
    have hp := transmit_preserve (s'.lastAckRecv + 1) now { s' with lastSeqSent := s'.lastAckRecv }
    exact ⟨by rw [hp.1]; exact h'.1, by rw [hp.2.1]; exact h'.2⟩

theorem senderRecvStep_inv (raw : Option (List Nat)) (now : ℚ) (s : SenderState)
    (h : SenderInv s) : SenderInv (senderRecvStep raw now s).1 := by
  unfold senderRecvStep
  rcases raw with _ | bytes
  · exact h
  · dsimp only
    rcases hd : Packet.fromBytes bytes with e | p
    · exact h
    · dsimp only
      by_cases hle : (p.seqNum : Int) ≤ s.lastAckRecv
      · rw [if_pos hle]; exact h
      · rw [if_neg hle]
        apply andThen_pres
        · unfold ackAdvance
          have ha := ackAdvanceLoop_preserve ((p.seqNum : Int) - s.lastAckRecv).toNat
            (p.seqNum : Int) now s
          exact ⟨by rw [ha.1]; exact h.1, by rw [ha.2.1]; exact h.2⟩
        · intro s' h'
          dsimp only
          apply andThen_pres
          · apply ccUpdate_inv
            split <;> split <;> exact h'
          · intro s'' h''
            unfold drain
            have hd2 := drainLoop_preserve (s''.lastSeqWritten - s''.lastSeqSent).toNat now s''
            exact ⟨by rw [hd2.1]; exact h''.1, by rw [hd2.2.1]; exact h''.2⟩

/-! ## Helper lemmas about the receiver primitives and the codec -/

theorem rAdvanceLoop_acks (fuel : Nat) (s : ReceiverState) (a : Int) :
    (rAdvanceLoop fuel s a).1.acksSent = s.acksSent ∧
    (rAdvanceLoop fuel s a).1.lastAckSent = s.lastAckSent := by
  induction fuel generalizing s a with
  | zero => simp [rAdvanceLoop]
  | succ n ih =>
    unfold rAdvanceLoop
    split
    · cases hw : s.recvWindow (rSlotOf (a + 1)) with
      | none => simp [hw]
      | some d => simpa [hw] using ih _ _
    · simp

theorem rAdvanceLoop_ready_mono (fuel : Nat) (s : ReceiverState) (a : Int) :
    ∃ tail, (rAdvanceLoop fuel s a).1.readyData = s.readyData ++ tail := by
  induction fuel generalizing s a with
  | zero => exact ⟨[], by simp [rAdvanceLoop]⟩
  | succ n ih =>
    unfold rAdvanceLoop
    split
    · cases hw : s.recvWindow (rSlotOf (a + 1)) with
      | none => exact ⟨[], by simp [hw]⟩
      | some d =>
        simp only [hw]
        obtain ⟨tail, htail⟩ := ih { s with readyData := s.readyData ++ [d], recvWindow := updateWin s.recvWindow (rSlotOf (a + 1)) none } (a + 1)
        exact ⟨[d] ++ tail, by simp [htail]⟩
    · exact ⟨[], by simp⟩

theorem rAdvanceLoop_window (fuel : Nat) (s : ReceiverState) (a : Int) (j : Nat) :
    (rAdvanceLoop fuel s a).1.recvWindow j = s.recvWindow j ∨
    (∃ d, s.recvWindow j = some d ∧ d ∈ (rAdvanceLoop fuel s a).1.readyData) := by
  induction fuel generalizing s a with
  | zero => simp [rAdvanceLoop]
  | succ n ih =>
    unfold rAdvanceLoop
    split
    · cases hw : s.recvWindow (rSlotOf (a + 1)) with
      | none => simp [hw]
      | some d =>
        simp only [hw]
        set s' : ReceiverState := { s with readyData := s.readyData ++ [d], recvWindow := updateWin s.recvWindow (rSlotOf (a + 1)) none } with hs'
        rcases ih s' (a + 1) with h | ⟨d', hd', hmem⟩
        · by_cases hj : j = rSlotOf (a + 1)
          · subst hj
            right
            refine ⟨d, hw, ?_⟩
            obtain ⟨tail, htail⟩ := rAdvanceLoop_ready_mono n s' (a + 1)
            rw [htail, hs']
            simp
          · left
            rw [h, hs']
            simp [updateWin, hj]
        · by_cases hj : j = rSlotOf (a + 1)
          · subst hj
            rw [hs'] at hd'
            simp [updateWin] at hd'
          · right
            rw [hs'] at hd'
            simp [updateWin, hj] at hd'
            exact ⟨d', hd', hmem⟩
    · simp

theorem recvStep_fresh (s : ReceiverState) (p : Packet)
    (hgt : (p.seqNum : Int) > s.lastAckSent) :
    ((receiverStep s p).recvWindow (rSlotOf p.seqNum) = some p.data ∨
      p.data ∈ (receiverStep s p).readyData) ∧
    ∃ a, (receiverStep s p).acksSent = s.acksSent ++ [a] := by
  unfold receiverStep
  rw [if_neg (not_le.mpr hgt)]
  dsimp only
  set s1 : ReceiverState := { s with recvWindow := updateWin s.recvWindow (rSlotOf p.seqNum) (some p.data) } with hs1
  set s2 := if (p.seqNum : Int) > s1.maxSeqRecv then { s1 with maxSeqRecv := (p.seqNum : Int) } else s1 with hs2
  have hw2 : s2.recvWindow (rSlotOf p.seqNum) = some p.data := by
    rw [hs2]
    split <;> · rw [hs1]; simp [updateWin]
  have ha2 : s2.acksSent = s.acksSent := by
    rw [hs2]
    split <;> rw [hs1]
  rcases hr : rAdvanceLoop (s2.maxSeqRecv - s2.lastAckSent).toNat s2 s2.lastAckSent with ⟨s3, a⟩
  simp only [hr]
  constructor
  · rcases rAdvanceLoop_window (s2.maxSeqRecv - s2.lastAckSent).toNat s2 s2.lastAckSent
        (rSlotOf p.seqNum) with h | ⟨d, hd, hmem⟩
    · left
      rw [hr] at h
      simp only at h
      rw [h]
      exact hw2
    · right
      rw [hr] at hmem
      simp only at hmem
      rw [hw2] at hd
      cases hd
      exact hmem
  · refine ⟨a, ?_⟩
    have hacks := (rAdvanceLoop_acks (s2.maxSeqRecv - s2.lastAckSent).toNat s2 s2.lastAckSent).1
    rw [hr] at hacks
    simp only at hacks
    simp only [hacks, ha2]

theorem decode_err_char :
    (∀ raw : List Nat, Packet.fromBytes raw = .error .structErr ↔ raw.length < 5) ∧
    (∀ t a b c d rest, Packet.fromBytes (t :: a :: b :: c :: d :: rest) = .error .valueErr ↔
      tagToType t = none) := by
  constructor
  · intro raw
    rcases raw with _ | ⟨t, _ | ⟨a, _ | ⟨b, _ | ⟨c, _ | ⟨d, rest⟩⟩⟩⟩⟩ <;>
      simp [Packet.fromBytes]
    cases h : tagToType t <;> simp [h]
  · intro t a b c d rest
    cases h : tagToType t <;> simp [Packet.fromBytes, h]

theorem initSender_syn (ss fr : Bool) (thr rtt0 now : ℚ) :
    (initSender ss fr thr rtt0 now).1.sent = [0] ∧
    (initSender ss fr thr rtt0 now).2 = none ∧
    (initSender ss fr thr rtt0 now).1.buf 0 = some ⟨⟨.SYN, 0, []⟩, .once now⟩ := by
  simp [initSender, transmit, slotOf, SEND_BUF_SIZE, updateBuf]

/-! ## Claims -/

/-- Claim C1, counterexample.  At the concrete fast-retransmit trigger state
`exC1` (cwnd = ssthresh = 8, tracker [5, 5], incoming duplicate ACK 5), the
code sets ssthresh to 2, while halving ssthresh — under either reading,
ssthresh/2 or max(1, cwnd/2) from the pre-halving cwnd — would give 4: the
claim that both cwnd and ssthresh are halved is false. -/
theorem C1_counterexample :
    (ccUpdate 5 0 exC1).1.cwnd = 4 ∧
    (ccUpdate 5 0 exC1).1.threshold = 2 ∧
    exC1.threshold / 2 = 4 ∧
    max 1 (exC1.cwnd / 2) = 4 ∧
    (2 : ℚ) ≠ 4 := by
  refine ⟨?_, ?_, ?_, ?_, ?_⟩
  · norm_num [ccUpdate, exC1, transmit, slotOf, SEND_BUF_SIZE, updateBuf,
      andThen, pyLenOfBool, pyListEqNat, show Int.toNat 6 = 6 from rfl,
      show ((6 : Int) % 5000).toNat = 6 from rfl]
  · norm_num [ccUpdate, exC1, transmit, slotOf, SEND_BUF_SIZE, updateBuf,
      andThen, pyLenOfBool, pyListEqNat, show Int.toNat 6 = 6 from rfl,
      show ((6 : Int) % 5000).toNat = 6 from rfl]
  · norm_num [exC1]
  · norm_num [exC1, max_def]
  · norm_num

/-- Claim C1, amended.  In fast-retransmit mode, when after appending the
incoming ACK sequence N the last 3 tracker entries are all N, the sender
performs exactly one immediate retransmission of sequence N+1, sets
cwnd to max(1, cwnd/2), sets ssthresh to max(1, newcwnd/2) — half of the
already-halved cwnd, not half of the old ssthresh — applies no growth
update for that ACK, and the step then raises (the tracker-trim defect). -/
theorem C1_fast_retransmit (s : SenderState) (N : Nat) (now : ℚ) (entry : SendSlot)
    (hfr : s.useFastRetransmit = true)
    (hlen : (s.duplicate ++ [N]).length ≥ 3)
    (hlast : ((s.duplicate ++ [N]).drop ((s.duplicate ++ [N]).length - 3)).all
      (fun i => i == N) = true)
    (hbuf : s.buf (slotOf ((N : Int) + 1)) = some entry)
    (hpseq : entry.packet.seqNum = N + 1) :
    (ccUpdate N now s).1.sent = s.sent ++ [N + 1] ∧
    (ccUpdate N now s).1.cwnd = max 1 (s.cwnd / 2) ∧
    (ccUpdate N now s).1.threshold = max 1 (max 1 (s.cwnd / 2) / 2) ∧
    (ccUpdate N now s).2 = some .typeErr := by
  unfold ccUpdate
  rw [hfr]
  simp only [if_true, if_pos hlen, hlast, if_pos rfl, andThen, pyLenOfBool, pyListEqNat]
  unfold transmit
  obtain ⟨pkt, mk⟩ := entry
  have hpseq' : pkt.seqNum = N + 1 := hpseq
  cases mk <;> simp [hbuf, hpseq', apply_ite]

/-- Witness for C1 at the concrete state `exC1`. -/
theorem C1_fast_retransmit_witness :
    exC1.useFastRetransmit = true ∧
    exC1.buf (slotOf ((5 : Nat) + 1 : Int)) = some ⟨⟨.DATA, 6, [1]⟩, .once 0⟩ ∧
    ((ccUpdate 5 0 exC1).1.sent = exC1.sent ++ [5 + 1] ∧
     (ccUpdate 5 0 exC1).1.cwnd = max 1 (exC1.cwnd / 2) ∧
     (ccUpdate 5 0 exC1).1.threshold = max 1 (max 1 (exC1.cwnd / 2) / 2) ∧
     (ccUpdate 5 0 exC1).2 = some .typeErr) :=
  ⟨rfl, rfl, C1_fast_retransmit exC1 5 0 ⟨⟨.DATA, 6, [1]⟩, .once 0⟩ rfl (by decide)
    (by decide) rfl rfl⟩

/-- Claim C2, counterexample.  With fast retransmit enabled, a stale ACK
(sequence 5 with `last_ack_recv = 5`) leaves the duplicate tracker empty:
the `continue` at line 173 runs before the tracking at line 205, so the
stale ACK is never appended, contrary to the claim. -/
theorem C2_counterexample :
    cs2.useFastRetransmit = true ∧
    Packet.fromBytes [65, 0, 0, 0, 5] = .ok ⟨.ACK, 5, []⟩ ∧
    (senderRecvStep (some [65, 0, 0, 0, 5]) 0 cs2).1.duplicate = [] ∧
    ([] : List Nat) ≠ [5] :=
  ⟨rfl, rfl, by decide, by decide⟩

/-- Claim C2, amended.  An incoming ACK whose sequence is at most
`last_ack_recv` is dropped by the `continue` at line 173 before any further
processing — in particular it is never appended to the fast-retransmit
duplicate tracker; the whole state is left untouched and no error is
raised. -/
theorem C2_stale_ack_dropped (s : SenderState) (raw : List Nat) (now : ℚ) (p : Packet)
    (hdec : Packet.fromBytes raw = .ok p)
    (hstale : (p.seqNum : Int) ≤ s.lastAckRecv) :
    senderRecvStep (some raw) now s = (s, none) := by
  unfold senderRecvStep
  dsimp only
  rw [hdec]
  simp [hstale]

/-- Witness for C2 at the concrete state `cs2` and the encoded ACK 5. -/
theorem C2_stale_ack_dropped_witness :
    Packet.fromBytes [65, 0, 0, 0, 5] = .ok ⟨.ACK, 5, []⟩ ∧
    (((⟨.ACK, 5, []⟩ : Packet).seqNum : Int) ≤ cs2.lastAckRecv) ∧
    senderRecvStep (some [65, 0, 0, 0, 5]) 0 cs2 = (cs2, none) :=
  ⟨rfl, by decide, C2_stale_ack_dropped cs2 [65, 0, 0, 0, 5] 0 ⟨.ACK, 5, []⟩ rfl (by decide)⟩

/-- Claim C3 (code bug).  When the fast-retransmit trigger fires at the
concrete state `csC3` (tracker [7, 7], incoming ACK 7), the retransmission
of sequence 8 happens, but line 227 evaluates `len(self.duplicate == 3)`:
`list == int` is False and `len(False)` raises a TypeError, so the tracker
is left holding [7, 7, 7] — never cleared or trimmed — and the
ACK-processing step aborts instead of completing normally. -/
theorem C3_trim_defect :
    (ccUpdate 7 0 csC3).2 = some .typeErr ∧
    (ccUpdate 7 0 csC3).1.duplicate = [7, 7, 7] ∧
    (ccUpdate 7 0 csC3).1.sent = [8] ∧
    pyLenOfBool (pyListEqNat [7, 7, 7] 3) = none := by
  refine ⟨?_, ?_, ?_, ?_⟩ <;> decide

/-- Claim C4.  When the retransmission timer fires: with slow start enabled
ssthresh becomes max(1, cwnd/2) computed from the pre-reset cwnd and cwnd
becomes 1; with it disabled cwnd becomes max(1, cwnd/2) and ssthresh is
untouched; every slot in (last_ack_recv, last_seq_sent] is marked
retransmitted (ineligible for RTT sampling); last_seq_sent ends at
last_ack_recv + 1 because sequence last_ack_recv + 1 is immediately
retransmitted (exactly one send); and the handler raises nothing. -/
theorem C4_timeout_loss_recovery (now : ℚ) (s : SenderState) (entry : SendSlot)
    (hocc : ∀ seq ∈ intRange (s.lastAckRecv + 1) (s.lastSeqSent + 1),
      (s.buf (slotOf seq)).isSome)
    (hentry : s.buf (slotOf (s.lastAckRecv + 1)) = some entry)
    (hseq : entry.packet.seqNum = (s.lastAckRecv + 1).toNat) :
    (timeoutStep now s).2 = none ∧
    (s.useSlowStart = true →
      (timeoutStep now s).1.threshold = max 1 (s.cwnd / 2) ∧
      (timeoutStep now s).1.cwnd = 1) ∧
    (s.useSlowStart = false →
      (timeoutStep now s).1.cwnd = max 1 (s.cwnd / 2) ∧
      (timeoutStep now s).1.threshold = s.threshold) ∧
    (∀ seq ∈ intRange (s.lastAckRecv + 1) (s.lastSeqSent + 1),
      ∃ p, (timeoutStep now s).1.buf (slotOf seq) = some ⟨p, .retrans⟩) ∧
    (timeoutStep now s).1.lastSeqSent = s.lastAckRecv + 1 ∧
    (timeoutStep now s).1.lastAckRecv = s.lastAckRecv ∧
    (timeoutStep now s).1.sent = s.sent ++ [(s.lastAckRecv + 1).toNat] := by
  set s1 := if s.useSlowStart then
      { s with threshold := max 1 (s.cwnd / 2), cwnd := 1 }
    else { s with cwnd := max 1 (s.cwnd / 2) } with hs1
  have hs1buf : s1.buf = s.buf := by rw [hs1]; split <;> rfl
  have hs1la : s1.lastAckRecv = s.lastAckRecv := by rw [hs1]; split <;> rfl
  have hs1ls : s1.lastSeqSent = s.lastSeqSent := by rw [hs1]; split <;> rfl
  have hs1sent : s1.sent = s.sent := by rw [hs1]; split <;> rfl
  have htl : timeoutStep now s =
      andThen (markLostList (intRange (s1.lastAckRecv + 1) (s1.lastSeqSent + 1)) s1)
        (fun s2 => transmit (s2.lastAckRecv + 1) now { s2 with lastSeqSent := s2.lastAckRecv }) := by
    rw [timeoutStep, hs1, hs1la, hs1ls]
  rcases hml : markLostList (intRange (s1.lastAckRecv + 1) (s1.lastSeqSent + 1)) s1
    with ⟨s2, err⟩
  have hok : (markLostList (intRange (s1.lastAckRecv + 1) (s1.lastSeqSent + 1)) s1).2 = none := by
    apply markLostList_ok
    intro q hq
    rw [hs1buf]
    exact hocc q (by rwa [hs1la, hs1ls] at hq)
  rw [hml] at hok
  simp only at hok
  subst hok
  have hf := markLostList_fields (intRange (s1.lastAckRecv + 1) (s1.lastSeqSent + 1)) s1
  rw [hml] at hf
  simp only at hf
  have hb2 : ∃ m2, s2.buf (slotOf (s.lastAckRecv + 1)) = some ⟨entry.packet, m2⟩ := by
    rcases markLostList_buf (intRange (s1.lastAckRecv + 1) (s1.lastSeqSent + 1)) s1
        (slotOf (s.lastAckRecv + 1)) with h | ⟨e, he, h⟩
    · rw [hml] at h
      simp only at h
      rw [h, hs1buf, hentry]
      exact ⟨entry.mark, rfl⟩
    · rw [hml] at h
      simp only at h
      rw [hs1buf, hentry] at he
      cases he
      exact ⟨.retrans, h⟩
  obtain ⟨m2, hb2⟩ := hb2
  have hla2 : s2.lastAckRecv = s.lastAckRecv := by rw [hf.1, hs1la]
  have htl2 : timeoutStep now s =
      transmit (s.lastAckRecv + 1) now { s2 with lastSeqSent := s2.lastAckRecv } := by
    rw [htl, hml]
    simp [andThen, hla2]
  have hts := transmit_sent (s.lastAckRecv + 1) now { s2 with lastSeqSent := s2.lastAckRecv }
    ⟨entry.packet, m2⟩ (by simpa [hla2] using hb2)
  have htp := transmit_preserve (s.lastAckRecv + 1) now { s2 with lastSeqSent := s2.lastAckRecv }
  have htlss := transmit_lss (s.lastAckRecv + 1) now { s2 with lastSeqSent := s2.lastAckRecv }
    ⟨entry.packet, m2⟩ (by simpa [hla2] using hb2)
  refine ⟨by rw [htl2]; exact hts.2, ?_, ?_, ?_, ?_, ?_, ?_⟩
  · intro hss
    rw [htl2]
    constructor
    · rw [htp.2.1]
      show s2.threshold = _
      rw [hf.2.2.2.2.2.1, hs1, if_pos hss]
    · rw [htp.1]
      show s2.cwnd = _
      rw [hf.2.2.2.2.1, hs1, if_pos hss]
  · intro hss
    rw [htl2]
    constructor
    · rw [htp.1]
      show s2.cwnd = _
      rw [hf.2.2.2.2.1, hs1, if_neg (by simp [hss])]
    · rw [htp.2.1]
      show s2.threshold = _
      rw [hf.2.2.2.2.2.1, hs1, if_neg (by simp [hss])]
  · intro seq hseqr
    have hmarks := markLostList_marks (intRange (s1.lastAckRecv + 1) (s1.lastSeqSent + 1)) s1 seq
      (by rwa [hs1la, hs1ls]) (by rw [hml])
    rw [hml] at hmarks
    simp only at hmarks
    obtain ⟨p, hp⟩ := hmarks
    rw [htl2]
    rcases transmit_buf (s.lastAckRecv + 1) now { s2 with lastSeqSent := s2.lastAckRecv }
        (slotOf seq) with h | ⟨hj, e, he, hcase⟩
    · exact ⟨p, by rw [h]; exact hp⟩
    · have he' : e = ⟨p, .retrans⟩ := by
        have hsp : ({ s2 with lastSeqSent := s2.lastAckRecv } : SenderState).buf (slotOf seq) =
            some ⟨p, .retrans⟩ := hp
        rw [hsp] at he
        cases he
        rfl
      subst he'
      rcases hcase with ⟨hm, _⟩ | ⟨_, hfin⟩
      · cases hm
      · exact ⟨p, hfin⟩
  · rw [htl2, htlss]
    simp [hla2]
  · rw [htl2, htp.2.2.2.2]
    show s2.lastAckRecv = _
    exact hla2
  · rw [htl2, hts.1]
    show s2.sent ++ _ = _
    rw [hf.2.2.2.1, hs1sent, hseq]

/-- Witness for C4 at the concrete state `cs4` (the SYN in flight). -/
theorem C4_timeout_loss_recovery_witness :
    (∀ seq ∈ intRange (cs4.lastAckRecv + 1) (cs4.lastSeqSent + 1),
      (cs4.buf (slotOf seq)).isSome) ∧
    cs4.buf (slotOf (cs4.lastAckRecv + 1)) = some slotSyn ∧
    slotSyn.packet.seqNum = (cs4.lastAckRecv + 1).toNat ∧
    (timeoutStep 0 cs4).2 = none ∧
    (timeoutStep 0 cs4).1.lastSeqSent = cs4.lastAckRecv + 1 ∧
    (timeoutStep 0 cs4).1.sent = cs4.sent ++ [(cs4.lastAckRecv + 1).toNat] := by
  have h := C4_timeout_loss_recovery 0 cs4 slotSyn (by decide) rfl rfl
  exact ⟨by decide, rfl, rfl, h.1, h.2.2.2.2.1, h.2.2.2.2.2.2⟩

/-- Claim C5.  The RTT estimate folds a sample exactly from a slot whose
most recent transmission was its first (`send_time` a timestamp): the
update is new = 0.9·old + 0.1·sample; a slot marked retransmitted — which
is what `transmit` writes whenever the slot was sent before, and what the
timeout handler writes over every in-flight slot (claim C4) — contributes
nothing when acknowledged. -/
theorem C5_rtt_sampling (s : SenderState) (now : ℚ) (entry : SendSlot)
    (hb : s.buf (slotOf (s.lastAckRecv + 1)) = some entry) :
    (ackAdvance (s.lastAckRecv + 1) now s).1.rtt = rttFold s.rtt entry.mark now ∧
    (∀ r t n : ℚ, rttFold r (.once t) n = (9 / 10) * r + (1 / 10) * (n - t)) ∧
    (∀ r n : ℚ, rttFold r .retrans n = r) ∧
    (∀ r n : ℚ, rttFold r .never n = r) ∧
    (∀ (q : Int) (n : ℚ) (t : SenderState) (e : SendSlot),
      t.buf (slotOf q) = some e → e.mark ≠ .never →
      (transmit q n t).1.buf (slotOf q) = some ⟨e.packet, .retrans⟩) := by
  refine ⟨ackAdvance_single s now entry hb, ?_, fun _ _ => rfl, fun _ _ => rfl,
    fun q n t e he hm => transmit_remark q n t e he hm⟩
  intro r t n
  show r * (9 / 10) + (n - t) * (1 / 10) = _
  ring

/-- Witness for C5 at the concrete state `cs5` (a retransmitted slot being
acknowledged leaves the RTT estimate unchanged). -/
theorem C5_rtt_sampling_witness :
    cs5.buf (slotOf (cs5.lastAckRecv + 1)) = some ⟨⟨.DATA, 3, [9]⟩, .retrans⟩ ∧
    (ackAdvance (cs5.lastAckRecv + 1) 7 cs5).1.rtt =
      rttFold cs5.rtt (SendSlot.mark ⟨⟨.DATA, 3, [9]⟩, .retrans⟩) 7 :=
  ⟨rfl, (C5_rtt_sampling cs5 7 ⟨⟨.DATA, 3, [9]⟩, .retrans⟩ rfl).1⟩

/-- Claim C6.  Given cwnd ≥ 1 and ssthresh ≥ 1 now, both still hold after a
full ACK-processing step (any input, any of the three policy modes) and
after a timeout step; and a freshly constructed sender whose
`initial_threshold` is ≥ 1 satisfies them. -/
theorem C6_invariants (s : SenderState) (raw : Option (List Nat)) (now : ℚ)
    (ss fr : Bool) (thr rtt0 t0 : ℚ) (h : SenderInv s) (hthr : 1 ≤ thr) :
    SenderInv (senderRecvStep raw now s).1 ∧
    SenderInv (timeoutStep now s).1 ∧
    SenderInv (initSender ss fr thr rtt0 t0).1 := by
  refine ⟨senderRecvStep_inv raw now s h, timeoutStep_inv now s h, ?_⟩
  unfold initSender
  dsimp only
  constructor
  · rw [(transmit_preserve 0 t0 _).1]
  · rw [(transmit_preserve 0 t0 _).2.1]
    exact hthr

/-- Witness for C6 at the concrete state `cs2` and threshold 50. -/
theorem C6_invariants_witness :
    SenderInv cs2 ∧ (1 : ℚ) ≤ 50 ∧
    (SenderInv (senderRecvStep none 0 cs2).1 ∧
     SenderInv (timeoutStep 0 cs2).1 ∧
     SenderInv (initSender true false 50 1 0).1) :=
  ⟨⟨by norm_num [cs2], by norm_num [cs2]⟩, by norm_num,
    C6_invariants cs2 none 0 true false 50 1 0 ⟨by norm_num [cs2], by norm_num [cs2]⟩
      (by norm_num)⟩

/-- Claim C7.  For every packet whose sequence number fits in 4 bytes and
whose payload is at most `MAX_DATA_SIZE` bytes, decoding the encoding
returns exactly the packet (same kind, sequence, payload). -/
theorem C7_decode_encode_roundtrip (p : Packet) (hseq : p.seqNum < 2 ^ 32)
    (hlen : p.data.length ≤ MAX_DATA_SIZE) :
    Packet.fromBytes p.toBytes = .ok p := by
  obtain ⟨ty, n, d⟩ := p
  have hn : n < 2 ^ 32 := hseq
  cases ty <;>
    simp [Packet.fromBytes, Packet.toBytes, tagToType, PacketType.tag, be4] <;>
    omega

/-- Witness for C7 at a concrete DATA packet. -/
theorem C7_decode_encode_roundtrip_witness :
    (70000 : Nat) < 2 ^ 32 ∧ ([1, 2, 3] : List Nat).length ≤ MAX_DATA_SIZE ∧
    Packet.fromBytes (Packet.toBytes ⟨.DATA, 70000, [1, 2, 3]⟩) = .ok ⟨.DATA, 70000, [1, 2, 3]⟩ :=
  ⟨by norm_num, by decide,
    C7_decode_encode_roundtrip ⟨.DATA, 70000, [1, 2, 3]⟩ (by norm_num) (by decide)⟩

/-- Claim C8.  Feeding the receiver Data packets with sequence numbers
0, 2, 1 (any payloads): after each packet exactly one cumulative ACK is
sent, with values 0, 0, 2; the payloads reach the consumer queue strictly
in order 0, 1, 2; and `last_ack_sent` ends at 2. -/
theorem C8_receiver_reorder (d0 d1 d2 : List Nat) :
    (receiverStep initReceiver ⟨.DATA, 0, d0⟩).acksSent = [0] ∧
    (receiverStep (receiverStep initReceiver ⟨.DATA, 0, d0⟩) ⟨.DATA, 2, d2⟩).acksSent
      = [0, 0] ∧
    (receiverStep (receiverStep (receiverStep initReceiver ⟨.DATA, 0, d0⟩)
        ⟨.DATA, 2, d2⟩) ⟨.DATA, 1, d1⟩).acksSent = [0, 0, 2] ∧
    (receiverStep (receiverStep (receiverStep initReceiver ⟨.DATA, 0, d0⟩)
        ⟨.DATA, 2, d2⟩) ⟨.DATA, 1, d1⟩).readyData = [d0, d1, d2] ∧
    (receiverStep (receiverStep (receiverStep initReceiver ⟨.DATA, 0, d0⟩)
        ⟨.DATA, 2, d2⟩) ⟨.DATA, 1, d1⟩).lastAckSent = 2 := by
  refine ⟨?_, ?_, ?_, ?_, ?_⟩ <;>
    simp [receiverStep, initReceiver, rAdvanceLoop, rSlotOf, updateWin, RECV_BUF_SIZE]

/-- Claim C9, counterexample.  An undecodable input is not disregarded: it
surfaces as an uncaught decode error that terminates the background loop
(the step result is not a normal continuation), for the sender loop and the
receiver loop alike. -/
theorem C9_counterexample :
    (senderRecvStep (some [65, 0]) 0 cs2).2 = some (.decodeErr .structErr) ∧
    (senderRecvStep (some [65, 0]) 0 cs2).2 ≠ none ∧
    receiverStepRaw initReceiver [66, 0, 0, 0, 7] = .error .valueErr :=
  ⟨by decide, by decide, rfl⟩

/-- Claim C9, amended.  Decoding fails exactly on inputs with fewer than 5
bytes (struct error) or an unrecognized kind tag (value error).  The
sender loop skips only an absent (`None`) input; an undecodable byte
string is not disregarded — the decode error propagates uncaught out of
both loops, ending them. -/
theorem C9_decode_failures :
    (∀ raw : List Nat, Packet.fromBytes raw = .error .structErr ↔ raw.length < 5) ∧
    (∀ t a b c d rest, Packet.fromBytes (t :: a :: b :: c :: d :: rest) = .error .valueErr ↔
      tagToType t = none) ∧
    (∀ (s : SenderState) (now : ℚ), senderRecvStep none now s = (s, none)) ∧
    (∀ (s : SenderState) (raw : List Nat) (now : ℚ) (e : DecodeError),
      Packet.fromBytes raw = .error e →
      senderRecvStep (some raw) now s = (s, some (.decodeErr e))) ∧
    (∀ (s : ReceiverState) (raw : List Nat) (e : DecodeError),
      Packet.fromBytes raw = .error e → receiverStepRaw s raw = .error e) := by
  refine ⟨decode_err_char.1, decode_err_char.2, fun s now => rfl, ?_, ?_⟩
  · intro s raw now e h
    unfold senderRecvStep
    dsimp only
    rw [h]
  · intro s raw e h
    unfold receiverStepRaw
    rw [h]

/-- Witness for C9 at the concrete truncated input `[65]`. -/
theorem C9_decode_failures_witness :
    Packet.fromBytes [65] = .error .structErr ∧
    senderRecvStep (some [65]) 0 cs2 = (cs2, some (.decodeErr .structErr)) ∧
    receiverStepRaw initReceiver [65] = .error .structErr :=
  ⟨rfl, C9_decode_failures.2.2.2.1 cs2 [65] 0 .structErr rfl,
    C9_decode_failures.2.2.2.2 initReceiver [65] .structErr rfl⟩

/-- Claim C10.  The receiver never inspects the packet kind: its step is the
same function for every kind; any packet with a fresh sequence number has
its payload stored in the window (or already moved to the consumer queue)
and is answered with exactly one ACK; the SYN at sequence 0 — the first
packet a new sender transmits — makes the receiver push the empty payload
to the consumer queue before any data and acknowledge 0. -/
theorem C10_kind_blind :
    (∀ (s : ReceiverState) (k1 k2 : PacketType) (n : Nat) (d : List Nat),
      receiverStep s ⟨k1, n, d⟩ = receiverStep s ⟨k2, n, d⟩) ∧
    (∀ (s : ReceiverState) (p : Packet), (p.seqNum : Int) > s.lastAckSent →
      ((receiverStep s p).recvWindow (rSlotOf p.seqNum) = some p.data ∨
        p.data ∈ (receiverStep s p).readyData) ∧
      ∃ a, (receiverStep s p).acksSent = s.acksSent ++ [a]) ∧
    (receiverStep initReceiver ⟨.SYN, 0, []⟩).readyData = [[]] ∧
    (receiverStep initReceiver ⟨.SYN, 0, []⟩).acksSent = [0] ∧
    (initSender true false 50 1 0).1.sent = [0] ∧
    (initSender true false 50 1 0).1.buf 0 = some ⟨⟨.SYN, 0, []⟩, .once 0⟩ := by
  refine ⟨fun _ _ _ _ _ => rfl, fun s p h => recvStep_fresh s p h, by decide, by decide,
    (initSender_syn true false 50 1 0).1, (initSender_syn true false 50 1 0).2.2⟩

/-- Witness for C10: a fresh ACK-kind packet at sequence 0 is buffered,
delivered and acknowledged by the receiver. -/
theorem C10_kind_blind_witness :
    (((0 : Nat) : Int) > initReceiver.lastAckSent) ∧
    (((receiverStep initReceiver ⟨.ACK, 0, [4]⟩).recvWindow (rSlotOf (0 : Nat)) = some [4] ∨
      [4] ∈ (receiverStep initReceiver ⟨.ACK, 0, [4]⟩).readyData) ∧
     ∃ a, (receiverStep initReceiver ⟨.ACK, 0, [4]⟩).acksSent = initReceiver.acksSent ++ [a]) :=
  ⟨by decide, C10_kind_blind.2.1 initReceiver ⟨.ACK, 0, [4]⟩ (by decide)⟩

end CongestionControl
